import Mathlib

/-!
Verification of the staging–resolve–load pipeline
(`src/pipeline/orchestrate/import.py`, `src/pipeline/transform/main.py`,
`src/pipeline/models/publication.py`).

Shallow embedding conventions:
* A staged article row (the DuckDB `articles` table row produced from the CSV)
  is `StagedArticle`; the resolved row built by the article transform is
  `ResolvedArticle`.
* A Python `dict` mapping publication names to ids is `PubMap`, an association
  list with first-occurrence key positions and overwrite-in-place insertion,
  matching CPython dict semantics for the operations the source uses
  (`in`, `[]`, assignment).
* A Python `set` of strings is a duplicate-free list built by `setAdd`
  (membership-guarded append), which is all the source uses (`set()`, `add`).
* The durable PostgreSQL store is `PgState`: the `publications` rows, the
  `articles` rows, a fresh-id counter standing for `uuid4`, and a logical
  clock standing for wall-clock timestamps.
* Fallible Python code returns `Except PyErr`; `PyErr.dbErr` stands for an
  exception raised by the database driver inside a chunk transaction (the
  source re-raises such exceptions without wrapping them, so the embedded
  error carries no payload).
* Chunk-level transaction failures are driven by oracles `Nat → Bool` giving,
  per loop index, whether that chunk's transaction fails; a failed chunk
  transaction has no effect on the store (transaction granularity is the
  chunk, per the `async with session.begin()` blocks).
-/

/-- A staged article row: the columns the transform selects from DuckDB
(`url, title, subtitle, publication as publication_name, date as
date_published`). -/
structure StagedArticle where
  url : String
  title : String
  subtitle : Option String
  publication_name : String
  date_published : Option String
deriving DecidableEq

/-- The article dict built by the transform for insertion, with the raw
publication name replaced by the resolved `publication_id`. -/
structure ResolvedArticle where
  url : String
  title : String
  subtitle : Option String
  publication_id : Nat
  date_published : Option String
deriving DecidableEq

/-- A durable `publications` row (id, name, created_on, updated_on), with the
surrogate id as a `Nat` and timestamps on a logical clock. -/
structure PubRow where
  id : Nat
  name : String
  created_on : Nat
  updated_on : Nat
deriving DecidableEq

/-- The durable PostgreSQL store: publications rows, articles rows, the next
fresh surrogate id, and the current logical time. -/
structure PgState where
  pubs : List PubRow
  arts : List ResolvedArticle
  nextId : Nat
  now : Nat
deriving DecidableEq

/-- Errors the embedded code can raise: `ValueError(msg)` and
`FileNotFoundError` as in the source, and `dbErr` for an exception raised by
the database driver during a chunk transaction (propagated unchanged by the
source, hence payload-free). -/
inductive PyErr where
  | valueError (msg : String)
  | fileNotFoundError (path : String)
  | dbErr
deriving DecidableEq

/-- The value returned by the `orchestrate_pipeline` flow on success: the
Prefect `Completed()` state, which carries no counters. -/
inductive RunOutcome where
  | completed
deriving DecidableEq

/-- A SQLAlchemy mapped-column declaration, restricted to the two constraint
flags relevant here. -/
structure ColumnDecl where
  nullable : Bool
  unique : Bool
deriving DecidableEq

/-- The declaration of `Publication.name` in
`src/pipeline/models/publication.py`: `mapped_column(String, nullable=False)`
— no `unique=True`, and `mapped_column` defaults to no unique constraint. -/
def publicationNameColumn : ColumnDecl :=
  { nullable := false, unique := false }

/-- Inserting a value into a single-text-column table that enforces exactly
the declared constraints: rejected only when the column is declared unique
and the value is already present. -/
def tableInsertName (decl : ColumnDecl) (rows : List String) (n : String) :
    Option (List String) :=
  if decl.unique && rows.contains n then none else some (rows ++ [n])

/-- A Python dict from publication name to id. -/
abbrev PubMap := List (String × Nat)

/-- Python dict lookup (`m[k]` / `k in m`): first matching key. -/
def dictLookup (m : PubMap) (k : String) : Option Nat :=
  match m with
  | [] => none
  | (k2, v) :: rest => if k2 = k then some v else dictLookup rest k

/-- Python dict assignment `m[k] = v`: overwrite in place, else append. -/
def dictInsert (m : PubMap) (k : String) (v : Nat) : PubMap :=
  match m with
  | [] => [(k, v)]
  | (k2, v2) :: rest =>
      if k2 = k then (k, v) :: rest else (k2, v2) :: dictInsert rest k v

/-- Python `set.add`: append the element unless already present. -/
def setAdd (s : List String) (x : String) : List String :=
  if x ∈ s then s else s ++ [x]

/-- Folding `setAdd` over a list: the duplicate-free list of elements in
first-occurrence order. -/
def firstDedup (l : List String) : List String :=
  l.foldl setAdd []

/-- The `get_file_path` task (`orchestrate/import.py:19-36`). The filesystem
facts about the given path are passed as the two booleans the source
consults: `ex` for `Path.exists()` and `isf` for `Path.is_file()`. The source
raises `FileNotFoundError` when `not csv_file.exists() and not
csv_file.is_file()`; `load_csv_into_duckdb` in `transform/main.py:25-28` uses
the same condition. -/
def get_file_path (ex isf : Bool) (p : String) : Except PyErr String :=
  if (!ex) && (!isf) then Except.error (PyErr.fileNotFoundError p)
  else Except.ok p

/-- The `create_publications_table` task: `SELECT DISTINCT publication AS
name FROM articles`, yielding the distinct publication names of the staged
rows (modelled in first-occurrence order). -/
def create_publications_table (rows : List StagedArticle) : List String :=
  firstDedup (rows.map (fun a => a.publication_name))

/-- The chunking both writers use: `for i in range(0, len(l), C): chunk =
l[i : i + C]`. For `C > 0`, `range(0, N, C)` is exactly the multiples of `C`
below `N` in ascending order, and the slice `l[i : i + C]` is
`(l.drop i).take C`. -/
def writeChunks {α : Type _} (C : Nat) (l : List α) : List (List α) :=
  ((List.range l.length).filter (fun i => i % C == 0)).map
    (fun i => (l.drop i).take C)

/-- The article dict constructed by the transform loop for a staged row whose
publication name resolved to `pid`
(`orchestrate/import.py:144-150`): url/title/subtitle/date_published are
carried over unchanged. -/
def resolveArticle (a : StagedArticle) (pid : Nat) : ResolvedArticle :=
  { url := a.url, title := a.title, subtitle := a.subtitle,
    publication_id := pid, date_published := a.date_published }

/-- The transform loop of `import_articles_to_postgres`
(`orchestrate/import.py:135-151`): accumulate `articles_for_insert` and the
`missing_publications` set. -/
def transformLoop (m : PubMap) :
    List StagedArticle → List ResolvedArticle → List String →
      List ResolvedArticle × List String
  | [], acc, miss => (acc, miss)
  | a :: rest, acc, miss =>
      match dictLookup m a.publication_name with
      | none => transformLoop m rest acc (setAdd miss a.publication_name)
      | some pid => transformLoop m rest (acc ++ [resolveArticle a pid]) miss

/-- The full transform: resolved rows for insertion plus the set of missing
publication names. -/
def transformArticles (m : PubMap) (rows : List StagedArticle) :
    List ResolvedArticle × List String :=
  transformLoop m rows [] []

/-- Modelled from the spec: the durable store's execution of the publications
upsert statement the resolver issues (`INSERT ... ON CONFLICT (name) DO
UPDATE SET updated_on = now RETURNING name, id`, `orchestrate/import.py:86-90`)
for one name — the store itself is an external collaborator, so its
insert-or-update behaviour is taken from spec §6: insert the name when
absent; on conflict update only `updated_on`; in both cases return
`(name, id)`. -/
def upsertOne (st : PgState) (n : String) : PgState × (String × Nat) :=
  match st.pubs.find? (fun r => r.name == n) with
  | some r =>
      ({ st with
          pubs := st.pubs.map (fun q =>
            if q.name == n then { q with updated_on := st.now } else q) },
       (n, r.id))
  | none =>
      ({ st with
          pubs := st.pubs ++
            [{ id := st.nextId, name := n, created_on := st.now,
               updated_on := st.now }],
          nextId := st.nextId + 1 },
       (n, st.nextId))

/-- One chunk's upsert statement: every name of the chunk upserted in order,
returning the new store and the `RETURNING name, id` rows. -/
def upsertChunk (st : PgState) : List String → PgState × List (String × Nat)
  | [] => (st, [])
  | n :: rest =>
      ((upsertChunk (upsertOne st n).1 rest).1,
       (upsertOne st n).2 :: (upsertChunk (upsertOne st n).1 rest).2)

/-- The chunk loop of `import_publications_to_postgres`
(`orchestrate/import.py:83-97`): one transaction per chunk; a failing chunk
transaction (per the oracle `pfail`) has no effect and the raised driver
error propagates, leaving earlier chunks committed; a successful chunk folds
its returned rows into the mapping. -/
def pubChunksLoop (pfail : Nat → Bool) :
    List (List String) → Nat → PgState → PubMap →
      PgState × Except PyErr PubMap
  | [], _, st, m => (st, Except.ok m)
  | c :: rest, i, st, m =>
      if pfail i then (st, Except.error PyErr.dbErr)
      else
        pubChunksLoop pfail rest (i + 1) (upsertChunk st c).1
          ((upsertChunk st c).2.foldl (fun m2 p => dictInsert m2 p.1 p.2) m)

/-- The `import_publications_to_postgres` task
(`orchestrate/import.py:74-101`): check the DuckDB connection, read the
distinct names, upsert them in chunks of size `C`, and return the
accumulated name→id mapping. -/
def pg_import_publications (C : Nat) (conn : Option (List String))
    (pfail : Nat → Bool) (st : PgState) : PgState × Except PyErr PubMap :=
  match conn with
  | none =>
      (st, Except.error (PyErr.valueError
        ("The DuckDB connection is not established.")))
  | some names => pubChunksLoop pfail (writeChunks C names) 0 st []

/-- The bulk-insert loop of `import_articles_to_postgres`
(`orchestrate/import.py:157-168`): one transaction per chunk, accumulating
`total_inserted` from each chunk's rowcount; a failing chunk transaction has
no effect and the raised driver error propagates, leaving earlier chunks
committed. -/
def artChunksLoop (afail : Nat → Bool) :
    List (List ResolvedArticle) → Nat → Nat → PgState →
      PgState × Except PyErr Nat
  | [], _, total, st => (st, Except.ok total)
  | c :: rest, i, total, st =>
      if afail i then (st, Except.error PyErr.dbErr)
      else
        artChunksLoop afail rest (i + 1) (total + c.length)
          { st with arts := st.arts ++ c }

/-- The `import_articles_to_postgres` task
(`orchestrate/import.py:105-168`): check the connection, check the mapping is
non-empty, transform the staged rows, and bulk-insert the resolved rows in
chunks of size `C`; the missing-names set is logged only. -/
def pg_import_articles (C : Nat) (conn : Option (List StagedArticle))
    (m : PubMap) (afail : Nat → Bool) (st : PgState) :
    PgState × Except PyErr Nat :=
  match conn with
  | none =>
      (st, Except.error (PyErr.valueError
        ("The DuckDB connection is not established.")))
  | some rows =>
      if m.isEmpty then
        (st, Except.error (PyErr.valueError
          ("Publication mapping is empty. Insert publications first.")))
      else
        artChunksLoop afail (writeChunks C (transformArticles m rows).1) 0 0 st

/-- The `orchestrate_pipeline` flow (`orchestrate/import.py:171-190`):
`get_file_path`, stage the file, build the distinct publications, resolve
publications, then load articles; the totals returned by the tasks are
discarded and the flow returns `Completed()`. The staged rows of the file at
`p` are passed as `rows`; `ex`/`isf` are the filesystem facts about `p`. -/
def orchestrate_pipeline (C : Nat) (ex isf : Bool)
    (rows : List StagedArticle) (pfail afail : Nat → Bool) (st : PgState)
    (p : String) : PgState × Except PyErr RunOutcome :=
  match get_file_path ex isf p with
  | Except.error e => (st, Except.error e)
  | Except.ok _ =>
      match pg_import_publications C (some (create_publications_table rows))
          pfail st with
      | (st1, Except.error e) => (st1, Except.error e)
      | (st1, Except.ok m) =>
          match pg_import_articles C (some rows) m afail st1 with
          | (st2, Except.error e) => (st2, Except.error e)
          | (st2, Except.ok _) => (st2, Except.ok RunOutcome.completed)

/-- The identity-relevant part of a publications row: everything except
`updated_on`. -/
def rowSkeleton (r : PubRow) : Nat × String × Nat :=
  (r.id, r.name, r.created_on)

/-- The identity-relevant content of the publications relation: ids, names
and creation times in row order (everything except the `updated_on`
timestamps). -/
def skeleton (st : PgState) : List (Nat × String × Nat) :=
  st.pubs.map rowSkeleton

/-- The surrogate id the store currently associates to a name, if any. -/
def idOf (st : PgState) (n : String) : Option Nat :=
  (st.pubs.find? (fun r => r.name == n)).map (fun r => r.id)

/-- One resolver step on (store, mapping): upsert one name and record the
returned pair in the mapping. -/
def pubStep (acc : PgState × PubMap) (n : String) : PgState × PubMap :=
  ((upsertOne acc.1 n).1,
   dictInsert acc.2 (upsertOne acc.1 n).2.1 (upsertOne acc.1 n).2.2)

/-- The store after upserting a list of names one at a time. -/
def runSt (ns : List String) (s : PgState) : PgState :=
  ns.foldl (fun s2 n => (upsertOne s2 n).1) s

/-- Sample staged rows and store states used by concrete witnesses and
counterexamples. -/
def stagedA : StagedArticle :=
  { url := "u1", title := "t1", subtitle := none,
    publication_name := "P", date_published := none }

def stagedB : StagedArticle :=
  { url := "u2", title := "t2", subtitle := none,
    publication_name := "P", date_published := none }

def resA : ResolvedArticle :=
  { url := "u1", title := "t1", subtitle := none,
    publication_id := 0, date_published := none }

def resB : ResolvedArticle :=
  { url := "u2", title := "t2", subtitle := none,
    publication_id := 0, date_published := none }

def pgEmpty : PgState :=
  { pubs := [], arts := [], nextId := 0, now := 0 }

/-- One resolver step folded over the whole distinct-name list: the resolver
loop flattened across chunk boundaries. -/
def pubRun (ns : List String) (acc : PgState × PubMap) : PgState × PubMap :=
  ns.foldl pubStep acc

/-- The store after successfully running the pipeline on one staged row with
publication P against an empty store. -/
def stRunA : PgState :=
  { pubs := [{ id := 0, name := "P", created_on := 0, updated_on := 0 }],
    arts := [resA], nextId := 1, now := 0 }

/-- The store after successfully running the pipeline on two staged rows of
publication P against an empty store. -/
def stRunB : PgState :=
  { pubs := [{ id := 0, name := "P", created_on := 0, updated_on := 0 }],
    arts := [resA, resB], nextId := 1, now := 0 }

lemma nat_lt_succ_div_mul (a b : Nat) (hb : 0 < b) : a < (a / b + 1) * b := by
  have h1 := Nat.div_add_mod a b
  have h2 : a % b < b := Nat.mod_lt _ hb
  have h3 : (a / b + 1) * b = b * (a / b) + b := by
    rw [Nat.add_mul, Nat.one_mul, Nat.mul_comm]
  omega

lemma ceil_succ (C N : Nat) (hC : 0 < C) :
    (N + 1 + C - 1) / C = (N + C - 1) / C + if C ∣ N then 1 else 0 := by
  have h1 : N + 1 + C - 1 = (N + C - 1) + 1 := by omega
  rw [h1, Nat.succ_div]
  have h2 : N + C - 1 + 1 = N + C := by omega
  simp only [h2]
  congr 1
  by_cases hd : C ∣ N
  · rw [if_pos (dvd_add hd (dvd_refl C)), if_pos hd]
  · rw [if_neg ?hnc, if_neg hd]
    intro h
    apply hd
    have h4 : C ∣ N + C - C := Nat.dvd_sub' h (dvd_refl C)
    have h5 : N + C - C = N := by omega
    rwa [h5] at h4

lemma filter_range_mod (C : Nat) (hC : 0 < C) :
    ∀ N, (List.range N).filter (fun i => i % C == 0)
      = (List.range ((N + C - 1) / C)).map (fun k => k * C)
  | 0 => by
      have h0 : (0 + C - 1) / C = 0 := Nat.div_eq_of_lt (by omega)
      rw [h0]
      simp
  | N + 1 => by
      rw [List.range_succ, List.filter_append, filter_range_mod C hC N, ceil_succ C N hC]
      by_cases hd : C ∣ N
      · obtain ⟨q, rfl⟩ := hd
        have hK : (C * q + C - 1) / C = q := by
          have h6 : C * q + C - 1 = C * q + (C - 1) := by omega
          rw [h6, Nat.mul_add_div hC, Nat.div_eq_of_lt (by omega), Nat.add_zero]
        have hp : ((C * q) % C == 0) = true := by
          simp [Nat.mul_mod_right]
        rw [if_pos (Dvd.intro q rfl), hK, List.range_succ, List.map_append]
        simp [hp, Nat.mul_comm]
      · have hp : ((N % C == 0)) = false := by
          simp only [beq_eq_false_iff_ne, ne_eq]
          intro h
          exact hd (Nat.dvd_of_mod_eq_zero h)
        rw [if_neg hd]
        simp [hp]

lemma writeChunks_eq_map {α : Type _} (C : Nat) (hC : 0 < C) (l : List α) :
    writeChunks C l
      = (List.range ((l.length + C - 1) / C)).map (fun k => (l.drop (k * C)).take C) := by
  unfold writeChunks
  rw [filter_range_mod C hC, List.map_map]
  rfl

lemma le_ceil_mul (C N : Nat) (hC : 0 < C) : N ≤ (N + C - 1) / C * C := by
  have h := nat_lt_succ_div_mul (N + C - 1) C hC
  have h2 : ((N + C - 1) / C + 1) * C = (N + C - 1) / C * C + C := by
    rw [Nat.add_mul, Nat.one_mul]
  omega

lemma join_map_take {α : Type _} (C : Nat) (l : List α) :
    ∀ K, ((List.range K).map (fun k => (l.drop (k * C)).take C)).flatten = l.take (K * C)
  | 0 => by simp
  | K + 1 => by
      rw [List.range_succ, List.map_append, List.flatten_append, join_map_take C l K]
      simp only [List.map_cons, List.map_nil, List.flatten_cons, List.flatten_nil,
        List.append_nil]
      rw [← List.take_add]
      congr 1
      rw [Nat.add_mul, Nat.one_mul]

lemma writeChunks_flatten {α : Type _} (C : Nat) (hC : 0 < C) (l : List α) :
    (writeChunks C l).flatten = l := by
  rw [writeChunks_eq_map C hC, join_map_take]
  exact List.take_of_length_le (le_ceil_mul C l.length hC)

lemma writeChunks_length {α : Type _} (C : Nat) (hC : 0 < C) (l : List α) :
    (writeChunks C l).length = (l.length + C - 1) / C := by
  rw [writeChunks_eq_map C hC, List.length_map, List.length_range]

lemma writeChunks_mid_length {α : Type _} (C : Nat) (hC : 0 < C) (l : List α) (k : Nat)
    (hk : k + 1 < (writeChunks C l).length) :
    ((writeChunks C l)[k]?.getD []).length = C := by
  rw [writeChunks_eq_map C hC] at hk ⊢
  rw [List.length_map, List.length_range] at hk
  rw [List.getElem?_map, List.getElem?_range (by omega)]
  simp only [Option.map_some', Option.getD_some]
  rw [List.length_take, List.length_drop]
  have h1 : (l.length + C - 1) / C * C ≤ l.length + C - 1 := Nat.div_mul_le_self _ _
  have h2 : (k + 2) * C ≤ (l.length + C - 1) / C * C :=
    Nat.mul_le_mul_right _ (by omega)
  have h3 : (k + 2) * C = k * C + 2 * C := by rw [Nat.add_mul]
  have h4 : 2 * C = C + C := by omega
  exact Nat.min_eq_left (by omega)

lemma ceil_dvd_eval (C q : Nat) (hC : 0 < C) : (C * q + C - 1) / C = q := by
  have h6 : C * q + C - 1 = C * q + (C - 1) := by omega
  rw [h6, Nat.mul_add_div hC, Nat.div_eq_of_lt (show C - 1 < C by omega), Nat.add_zero]

lemma ceil_not_dvd_eval (C q r : Nat) (hC : 0 < C) (hr : 0 < r) (hrC : r < C) :
    (C * q + r + C - 1) / C = q + 1 := by
  have h6 : C * q + r + C - 1 = C * q + (r + C - 1) := by omega
  rw [h6, Nat.mul_add_div hC]
  have h7 : (r + C - 1) / C = 1 := by
    apply Nat.div_eq_of_lt_le
    · omega
    · omega
  rw [h7]

lemma writeChunks_last_length {α : Type _} (C : Nat) (hC : 0 < C) (l : List α) (hl : l ≠ []) :
    ((writeChunks C l).getLast?.getD []).length
      = if l.length % C = 0 then C else l.length % C := by
  have hN : 0 < l.length := List.length_pos.mpr hl
  rw [writeChunks_eq_map C hC]
  have hK1 : 0 < (l.length + C - 1) / C := Nat.div_pos (by omega) hC
  obtain ⟨K2, hK2⟩ : ∃ K2, (l.length + C - 1) / C = K2 + 1 :=
    ⟨(l.length + C - 1) / C - 1, by omega⟩
  rw [hK2, List.range_succ, List.map_append, List.map_cons, List.map_nil,
    List.getLast?_concat]
  simp only [Option.getD_some]
  rw [List.length_take, List.length_drop]
  obtain ⟨q, r, hqr, hrC, hNr⟩ :
      ∃ q r, C * q + r = l.length ∧ r < C ∧ l.length % C = r :=
    ⟨l.length / C, l.length % C, Nat.div_add_mod l.length C, Nat.mod_lt _ hC, rfl⟩
  rw [hNr]
  by_cases hr : r = 0
  · subst hr
    rcases q with _ | q2
    · omega
    · have hceil : (l.length + C - 1) / C = q2 + 1 := by
        rw [← hqr]
        have h6 : C * (q2 + 1) + 0 + C - 1 = C * (q2 + 1) + C - 1 := by omega
        rw [h6, ceil_dvd_eval C (q2 + 1) hC]
      have hK3 : K2 = q2 := by omega
      have h7 : C * (q2 + 1) = C * q2 + C := by rw [Nat.mul_add, Nat.mul_one]
      have h8 : K2 * C = C * q2 := by rw [hK3, Nat.mul_comm]
      have h9 : l.length - K2 * C = C := by omega
      rw [h9, if_pos rfl, Nat.min_self]
  · have hceil : (l.length + C - 1) / C = q + 1 := by
      rw [← hqr]
      exact ceil_not_dvd_eval C q r hC (by omega) hrC
    have hK3 : K2 = q := by omega
    have h8 : K2 * C = C * q := by rw [hK3, Nat.mul_comm]
    have h9 : l.length - K2 * C = r := by omega
    rw [h9, if_neg hr]
    exact Nat.min_eq_right (Nat.le_of_lt hrC)

lemma transformLoop_eq (m : PubMap) :
    ∀ (rows : List StagedArticle) (acc : List ResolvedArticle) (miss : List String),
      transformLoop m rows acc miss
        = (acc ++ rows.filterMap
              (fun a => (dictLookup m a.publication_name).map (resolveArticle a)),
           ((rows.filter (fun a => (dictLookup m a.publication_name).isNone)).map
              (fun a => a.publication_name)).foldl setAdd miss)
  | [], acc, miss => by simp [transformLoop]
  | a :: rest, acc, miss => by
      simp only [transformLoop]
      cases h : dictLookup m a.publication_name with
      | none =>
          rw [transformLoop_eq m rest acc (setAdd miss a.publication_name)]
          simp [h]
      | some pid =>
          dsimp only
          rw [transformLoop_eq m rest (acc ++ [resolveArticle a pid]) miss]
          simp [h]

lemma transform_count (m : PubMap) :
    ∀ rows : List StagedArticle,
      (rows.filterMap
          (fun a => (dictLookup m a.publication_name).map (resolveArticle a))).length
        + (rows.filter (fun a => (dictLookup m a.publication_name).isNone)).length
        = rows.length
  | [] => by simp
  | a :: rest => by
      cases h : dictLookup m a.publication_name with
      | none =>
          simp [h]
          have := transform_count m rest
          omega
      | some pid =>
          simp only [List.filterMap_cons, h, Option.map_some', List.filter_cons]
          simp [h, List.length_cons]
          have := transform_count m rest
          omega

lemma find?_cons_true {α : Type _} (p : α → Bool) (a : α) (l : List α) (h : p a = true) :
    (a :: l).find? p = some a := by
  rw [List.find?, h]

lemma find?_cons_false {α : Type _} (p : α → Bool) (a : α) (l : List α) (h : p a = false) :
    (a :: l).find? p = l.find? p := by
  rw [List.find?, h]

lemma find?_append_some {α : Type _} (p : α → Bool) (l1 l2 : List α) (r : α)
    (h : l1.find? p = some r) : (l1 ++ l2).find? p = some r := by
  induction l1 with
  | nil => simp [List.find?] at h
  | cons a rest ih =>
      cases hp : p a with
      | true => simp [List.find?, hp] at h ⊢; exact h
      | false =>
          simp only [List.cons_append, List.find?, hp] at h ⊢
          exact ih h

lemma find?_append_none {α : Type _} (p : α → Bool) (l1 l2 : List α)
    (h : l1.find? p = none) : (l1 ++ l2).find? p = l2.find? p := by
  induction l1 with
  | nil => rfl
  | cons a rest ih =>
      cases hp : p a with
      | true => simp [List.find?, hp] at h
      | false =>
          simp only [List.cons_append, List.find?, hp] at h ⊢
          exact ih h

lemma upsertOne_pair_fst (st : PgState) (n : String) : (upsertOne st n).2.1 = n := by
  unfold upsertOne
  cases st.pubs.find? (fun r => r.name == n) <;> rfl

lemma upsertOne_arts (st : PgState) (n : String) : (upsertOne st n).1.arts = st.arts := by
  unfold upsertOne
  cases st.pubs.find? (fun r => r.name == n) <;> rfl

lemma skeleton_touch (pubs : List PubRow) (n : String) (t : Nat) :
    (pubs.map (fun q => if q.name == n then { q with updated_on := t } else q)).map
        rowSkeleton
      = pubs.map rowSkeleton := by
  induction pubs with
  | nil => rfl
  | cons r rest ih =>
      simp only [List.map_cons, ih]
      congr 1
      by_cases h : (r.name == n) = true
      · rw [if_pos h]
        rfl
      · rw [if_neg h]

lemma find?_touch (pubs : List PubRow) (n k : String) (t : Nat) :
    ((pubs.map (fun q => if q.name == n then { q with updated_on := t } else q)).find?
        (fun q => q.name == k)).map (fun r => r.id)
      = (pubs.find? (fun q => q.name == k)).map (fun r => r.id) := by
  induction pubs with
  | nil => rfl
  | cons r rest ih =>
      simp only [List.map_cons]
      have hname : (if (r.name == n) = true then { r with updated_on := t } else r).name
          = r.name := by
        by_cases hn : (r.name == n) = true
        · rw [if_pos hn]
        · rw [if_neg hn]
      cases hk : (r.name == k) with
      | true =>
          have hk2 : ((fun q : PubRow => q.name == k)
                (if (r.name == n) = true then { r with updated_on := t } else r)) = true := by
            show ((if (r.name == n) = true then { r with updated_on := t } else r).name == k) = true
            rw [hname]; exact hk
          rw [find?_cons_true (fun q : PubRow => q.name == k) _ _ hk2,
            find?_cons_true (fun q : PubRow => q.name == k) _ _ hk]
          by_cases hn : (r.name == n) = true
          · rw [if_pos hn]
            rfl
          · rw [if_neg hn]
      | false =>
          have hk2 : ((fun q : PubRow => q.name == k)
                (if (r.name == n) = true then { r with updated_on := t } else r)) = false := by
            show ((if (r.name == n) = true then { r with updated_on := t } else r).name == k) = false
            rw [hname]; exact hk
          rw [find?_cons_false (fun q : PubRow => q.name == k) _ _ hk2,
            find?_cons_false (fun q : PubRow => q.name == k) _ _ hk]
          exact ih

lemma upsertOne_skeleton_of_present (st : PgState) (n : String)
    (h : (idOf st n).isSome = true) :
    skeleton (upsertOne st n).1 = skeleton st := by
  unfold upsertOne
  cases h2 : st.pubs.find? (fun q => q.name == n) with
  | none =>
      unfold idOf at h
      rw [h2] at h
      simp at h
  | some r =>
      show (st.pubs.map
          (fun q => if q.name == n then { q with updated_on := st.now } else q)).map
            rowSkeleton
        = st.pubs.map rowSkeleton
      exact skeleton_touch st.pubs n st.now

lemma upsertOne_idOf_self (st : PgState) (n : String) :
    idOf (upsertOne st n).1 n = some (upsertOne st n).2.2 := by
  unfold upsertOne idOf
  cases h2 : st.pubs.find? (fun q => q.name == n) with
  | some r =>
      show ((st.pubs.map
          (fun q => if q.name == n then { q with updated_on := st.now } else q)).find?
            (fun q => q.name == n)).map (fun q => q.id) = some r.id
      rw [find?_touch, h2]
      rfl
  | none =>
      show ((st.pubs ++ [(⟨st.nextId, n, st.now, st.now⟩ : PubRow)]).find?
          (fun q => q.name == n)).map (fun q => q.id) = some st.nextId
      rw [find?_append_none _ _ _ h2,
        find?_cons_true (fun q : PubRow => q.name == n) _ _ (by simp)]
      rfl

lemma upsertOne_idOf_mono (st : PgState) (n k : String)
    (h : (idOf st k).isSome = true) :
    idOf (upsertOne st n).1 k = idOf st k := by
  unfold upsertOne
  cases h2 : st.pubs.find? (fun q => q.name == n) with
  | some r =>
      show ((st.pubs.map
          (fun q => if q.name == n then { q with updated_on := st.now } else q)).find?
            (fun q => q.name == k)).map (fun q => q.id)
        = (st.pubs.find? (fun q => q.name == k)).map (fun q => q.id)
      exact find?_touch st.pubs n k st.now
  | none =>
      unfold idOf at h ⊢
      have hgoal : ((st.pubs ++ [(⟨st.nextId, n, st.now, st.now⟩ : PubRow)]).find?
            (fun q => q.name == k)).map (fun q => q.id)
          = (st.pubs.find? (fun q => q.name == k)).map (fun q => q.id) := by
        cases h3 : st.pubs.find? (fun q => q.name == k) with
        | none => rw [h3] at h; simp at h
        | some rk => rw [find?_append_some _ _ _ _ h3]
      exact hgoal


lemma runSt_cons (n : String) (ns : List String) (s : PgState) :
    runSt (n :: ns) s = runSt ns (upsertOne s n).1 := rfl

lemma pubRun_cons (n : String) (ns : List String) (s : PgState) (d : PubMap) :
    pubRun (n :: ns) (s, d)
      = pubRun ns ((upsertOne s n).1, dictInsert d n (upsertOne s n).2.2) := by
  show pubRun ns (pubStep (s, d) n) = _
  unfold pubStep
  rw [upsertOne_pair_fst]

lemma pubRun_fst : ∀ (ns : List String) (s : PgState) (d : PubMap),
    (pubRun ns (s, d)).1 = runSt ns s
  | [], s, d => rfl
  | n :: ns, s, d => by
      rw [pubRun_cons, runSt_cons]
      exact pubRun_fst ns _ _

lemma runSt_idOf_mono : ∀ (ns : List String) (s : PgState) (k : String),
    (idOf s k).isSome = true → idOf (runSt ns s) k = idOf s k
  | [], s, k, h => rfl
  | n :: ns, s, k, h => by
      rw [runSt_cons]
      have h1 := upsertOne_idOf_mono s n k h
      have h2 : (idOf (upsertOne s n).1 k).isSome = true := by rw [h1]; exact h
      rw [runSt_idOf_mono ns _ k h2, h1]

lemma runSt_idOf_present : ∀ (ns : List String) (s : PgState) (k : String),
    k ∈ ns → (idOf (runSt ns s) k).isSome = true
  | [], _, _, h => by cases h
  | n :: ns, s, k, h => by
      rw [runSt_cons]
      rcases List.mem_cons.mp h with h1 | h1
      · subst h1
        have h2 := upsertOne_idOf_self s k
        have h3 : (idOf (upsertOne s k).1 k).isSome = true := by rw [h2]; rfl
        rw [runSt_idOf_mono ns _ k h3, h2]
        rfl
      · exact runSt_idOf_present ns _ k h1

lemma runSt_skeleton_of_present : ∀ (ns : List String) (s : PgState),
    (∀ k ∈ ns, (idOf s k).isSome = true) → skeleton (runSt ns s) = skeleton s
  | [], s, h => rfl
  | n :: ns, s, h => by
      rw [runSt_cons]
      have hn := h n (List.mem_cons_self n ns)
      have h1 : skeleton (upsertOne s n).1 = skeleton s :=
        upsertOne_skeleton_of_present s n hn
      have h2 : ∀ k ∈ ns, (idOf (upsertOne s n).1 k).isSome = true := by
        intro k hk
        rw [upsertOne_idOf_mono s n k (h k (List.mem_cons_of_mem n hk))]
        exact h k (List.mem_cons_of_mem n hk)
      rw [runSt_skeleton_of_present ns _ h2, h1]

lemma pubRun_snd : ∀ (ns : List String) (s : PgState) (d : PubMap),
    (pubRun ns (s, d)).2
      = ns.foldl (fun d2 k => dictInsert d2 k ((idOf (runSt ns s) k).getD 0)) d
  | [], s, d => rfl
  | n :: ns, s, d => by
      rw [pubRun_cons, pubRun_snd ns _ _]
      show _ = ns.foldl
          (fun d2 k => dictInsert d2 k ((idOf (runSt (n :: ns) s) k).getD 0))
          (dictInsert d n ((idOf (runSt (n :: ns) s) n).getD 0))
      rw [runSt_cons]
      have h2 := upsertOne_idOf_self s n
      have h3 : (idOf (upsertOne s n).1 n).isSome = true := by rw [h2]; rfl
      rw [runSt_idOf_mono ns _ n h3, h2]
      rfl

lemma upsertChunk_fst : ∀ (c : List String) (st : PgState),
    (upsertChunk st c).1 = runSt c st
  | [], st => rfl
  | n :: rest, st => by
      show (upsertChunk (upsertOne st n).1 rest).1 = _
      rw [runSt_cons]
      exact upsertChunk_fst rest _

lemma upsertChunk_pairs_fold : ∀ (c : List String) (st : PgState) (m : PubMap),
    (upsertChunk st c).2.foldl (fun m2 p => dictInsert m2 p.1 p.2) m
      = (pubRun c (st, m)).2
  | [], st, m => rfl
  | n :: rest, st, m => by
      show ((upsertOne st n).2 :: (upsertChunk (upsertOne st n).1 rest).2).foldl
          (fun m2 p => dictInsert m2 p.1 p.2) m = _
      rw [List.foldl_cons, upsertChunk_pairs_fold rest _ _]
      show (pubRun rest ((upsertOne st n).1,
          dictInsert m (upsertOne st n).2.1 (upsertOne st n).2.2)).2 = _
      rw [upsertOne_pair_fst, ← pubRun_cons]

lemma pubRun_append (l1 l2 : List String) (acc : PgState × PubMap) :
    pubRun (l1 ++ l2) acc = pubRun l2 (pubRun l1 acc) :=
  List.foldl_append _ _ _ _

lemma pubChunksLoop_no_fail : ∀ (chunks : List (List String)) (i : Nat)
    (st : PgState) (m : PubMap),
    pubChunksLoop (fun _ => false) chunks i st m
      = ((pubRun chunks.flatten (st, m)).1, Except.ok (pubRun chunks.flatten (st, m)).2)
  | [], i, st, m => rfl
  | c :: rest, i, st, m => by
      show pubChunksLoop (fun _ => false) rest (i + 1) (upsertChunk st c).1
          ((upsertChunk st c).2.foldl (fun m2 p => dictInsert m2 p.1 p.2) m) = _
      rw [pubChunksLoop_no_fail rest (i + 1) _ _, upsertChunk_fst,
        upsertChunk_pairs_fold]
      have hpair : ((runSt c st : PgState), (pubRun c (st, m)).2) = pubRun c (st, m) := by
        rw [← pubRun_fst c st m]
      rw [hpair]
      show ((pubRun rest.flatten (pubRun c (st, m))).1,
          Except.ok (pubRun rest.flatten (pubRun c (st, m))).2) = _
      rw [← pubRun_append]
      rfl

lemma pg_import_publications_no_fail (C : Nat) (hC : 0 < C) (names : List String)
    (st : PgState) :
    pg_import_publications C (some names) (fun _ => false) st
      = ((pubRun names (st, [])).1, Except.ok (pubRun names (st, [])).2) := by
  show pubChunksLoop (fun _ => false) (writeChunks C names) 0 st [] = _
  rw [pubChunksLoop_no_fail, writeChunks_flatten C hC]

theorem publication_resolution_idempotent (C : Nat) (names : List String)
    (st : PgState) (t2 : Nat) (hC : 0 < C) :
    (pg_import_publications C (some names) (fun _ => false)
        { (pg_import_publications C (some names) (fun _ => false) st).1 with
            now := t2 }).2
      = (pg_import_publications C (some names) (fun _ => false) st).2
    ∧ skeleton (pg_import_publications C (some names) (fun _ => false)
        { (pg_import_publications C (some names) (fun _ => false) st).1 with
            now := t2 }).1
      = skeleton (pg_import_publications C (some names) (fun _ => false) st).1 := by
  rw [pg_import_publications_no_fail C hC names st]
  dsimp only
  rw [pubRun_fst names st []]
  rw [pg_import_publications_no_fail C hC names { runSt names st with now := t2 }]
  dsimp only
  have hpres : ∀ k ∈ names, (idOf (runSt names st) k).isSome = true :=
    fun k hk => runSt_idOf_present names st k hk
  have hpres2 : ∀ k ∈ names,
      (idOf ({ runSt names st with now := t2 } : PgState) k).isSome = true :=
    fun k hk => hpres k hk
  constructor
  · rw [pubRun_snd names _ [], pubRun_snd names st []]
    have hfold : List.foldl
        (fun d2 k => dictInsert d2 k
          ((idOf (runSt names { runSt names st with now := t2 }) k).getD 0)) [] names
        = List.foldl
        (fun d2 k => dictInsert d2 k ((idOf (runSt names st) k).getD 0)) [] names := by
      apply List.foldl_ext
      intro d k hk
      rw [runSt_idOf_mono names _ k (hpres2 k hk)]
      rfl
    rw [hfold]
  · rw [pubRun_fst names _ []]
    have h4 := runSt_skeleton_of_present names
        { pubs := (runSt names st).pubs, arts := (runSt names st).arts,
          nextId := (runSt names st).nextId, now := t2 }
        (fun k hk => hpres k hk)
    rw [h4]
    rfl

/-- C1: the article transformation processes each staged row exactly once:
rows whose publication name is in the mapping are emitted with the mapped
publication_id and all other fields unchanged; rows whose name is absent are
dropped and their names collected into the missing-names set; emitted rows
plus dropped rows account for every staged row. -/
theorem transform_processes_each_row_once (m : PubMap) (rows : List StagedArticle) :
    (transformArticles m rows).1
        = rows.filterMap
            (fun a => (dictLookup m a.publication_name).map (resolveArticle a))
    ∧ (transformArticles m rows).2
        = firstDedup ((rows.filter
            (fun a => (dictLookup m a.publication_name).isNone)).map
              (fun a => a.publication_name))
    ∧ (transformArticles m rows).1.length
        + (rows.filter (fun a => (dictLookup m a.publication_name).isNone)).length
        = rows.length := by
  refine ⟨?_, ?_, ?_⟩
  · rw [transformArticles, transformLoop_eq m rows [] []]
    simp
  · rw [transformArticles, transformLoop_eq m rows [] []]
    rfl
  · rw [transformArticles, transformLoop_eq m rows [] []]
    simp only [List.nil_append]
    exact transform_count m rows

/-- C5: with chunk size C and N rows, the writers issue exactly ceil(N/C)
chunked write transactions (one per element of writeChunks); every chunk but
the last holds exactly C rows, and the last holds N mod C rows (or C when C
divides N). -/
theorem chunk_boundary_correctness {α : Type _} (C : Nat) (l : List α) (hC : 0 < C) :
    (writeChunks C l).length = (l.length + C - 1) / C
    ∧ (∀ k, k + 1 < (writeChunks C l).length →
        ((writeChunks C l)[k]?.getD []).length = C)
    ∧ (l ≠ [] → ((writeChunks C l).getLast?.getD []).length
        = if l.length % C = 0 then C else l.length % C) :=
  ⟨writeChunks_length C hC l,
   fun k hk => writeChunks_mid_length C hC l k hk,
   fun hl => writeChunks_last_length C hC l hl⟩

theorem chunk_boundary_correctness_witness :
    0 < 2
    ∧ ((writeChunks 2 ([10, 11, 12] : List Nat)).length
          = (([10, 11, 12] : List Nat).length + 2 - 1) / 2
      ∧ (∀ k, k + 1 < (writeChunks 2 ([10, 11, 12] : List Nat)).length →
          ((writeChunks 2 ([10, 11, 12] : List Nat))[k]?.getD []).length = 2)
      ∧ (([10, 11, 12] : List Nat) ≠ [] →
          ((writeChunks 2 ([10, 11, 12] : List Nat)).getLast?.getD []).length
            = if ([10, 11, 12] : List Nat).length % 2 = 0 then 2
              else ([10, 11, 12] : List Nat).length % 2)) :=
  ⟨by decide, chunk_boundary_correctness 2 [10, 11, 12] (by decide)⟩

/-- C10: for chunk size C > 0 the chunking partitions the row list without
loss or duplication: concatenating the slices in loop order gives back
exactly the original list. -/
theorem chunking_partitions_rows {α : Type _} (C : Nat) (l : List α) (hC : 0 < C) :
    (writeChunks C l).flatten = l :=
  writeChunks_flatten C hC l

theorem chunking_partitions_rows_witness :
    0 < 2 ∧ (writeChunks 2 ([7, 8, 9] : List Nat)).flatten = [7, 8, 9] :=
  ⟨by decide, chunking_partitions_rows 2 [7, 8, 9] (by decide)⟩

/-- C2 (code bug): the Publication model declares name as NOT NULL but not
UNIQUE, so the declared publications relation admits a second row with an
already-present name, contradicting the documented UNIQUE constraint that
the resolver's ON CONFLICT (name) upsert relies on. -/
theorem publications_name_column_not_unique :
    publicationNameColumn.unique = false
    ∧ publicationNameColumn.nullable = false
    ∧ tableInsertName publicationNameColumn (["Alpha"]) ("Alpha")
        = some (["Alpha", "Alpha"]) :=
  ⟨rfl, rfl, rfl⟩

/-- C3 (code bug): the existence check uses a conjunction
(`not exists() and not is_file()`), so a path that exists but is not a
regular file — a directory — passes the check and no FileNotFoundError is
raised, while a genuinely missing path does fail. -/
theorem get_file_path_accepts_existing_directory :
    get_file_path true false ("somedir") = Except.ok ("somedir")
    ∧ get_file_path false false ("missing")
        = Except.error (PyErr.fileNotFoundError ("missing")) :=
  ⟨rfl, rfl⟩

/-- C9: on a valid input file with zero rows, publication resolution returns
an empty mapping and the article import then fails with the empty-mapping
precondition ValueError, so the whole run fails with that error and the
store is untouched. -/
theorem empty_staging_fails_precondition (C : Nat) (pfail afail : Nat → Bool)
    (st : PgState) (p : String) :
    pg_import_publications C (some []) pfail st = (st, Except.ok [])
    ∧ orchestrate_pipeline C true true [] pfail afail st p
        = (st, Except.error (PyErr.valueError
            ("Publication mapping is empty. Insert publications first."))) := by
  constructor
  · show pubChunksLoop pfail (writeChunks C []) 0 st [] = _
    have h : writeChunks C ([] : List String) = [] := by
      unfold writeChunks
      rfl
    rw [h]
    rfl
  · rfl

lemma artChunksLoop_no_value_error (afail : Nat → Bool) :
    ∀ (chunks : List (List ResolvedArticle)) (i t : Nat) (st : PgState) (s : String),
      (artChunksLoop afail chunks i t st).2 ≠ Except.error (PyErr.valueError s)
  | [], i, t, st, s => by simp [artChunksLoop]
  | c :: rest, i, t, st, s => by
      cases h : afail i with
      | true => simp [artChunksLoop, h]
      | false =>
          simp only [artChunksLoop, h, Bool.false_eq_true, if_false]
          exact artChunksLoop_no_value_error afail rest (i + 1) (t + c.length) _ s

/-- C6: attempting the article load with an empty PublicationMapping fails
with the precondition ValueError before any row is written (the store is
returned unchanged), and with any non-empty mapping that error is never
raised. -/
theorem article_load_empty_mapping_precondition (C : Nat) (rows : List StagedArticle)
    (afail : Nat → Bool) (st : PgState) (k : String) (v : Nat) (m : PubMap) :
    pg_import_articles C (some rows) [] afail st
      = (st, Except.error (PyErr.valueError
          ("Publication mapping is empty. Insert publications first.")))
    ∧ (pg_import_articles C (some rows) ((k, v) :: m) afail st).2
      ≠ Except.error (PyErr.valueError
          ("Publication mapping is empty. Insert publications first.")) := by
  constructor
  · rfl
  · show (artChunksLoop afail
        (writeChunks C (transformArticles ((k, v) :: m) rows).1) 0 0 st).2 ≠ _
    exact artChunksLoop_no_value_error afail _ 0 0 st _

lemma artChunksLoop_fail_at :
    ∀ (k : Nat) (chunks : List (List ResolvedArticle)) (afail : Nat → Bool)
      (i t : Nat) (st : PgState),
      k < chunks.length → afail (i + k) = true →
      (∀ j, j < k → afail (i + j) = false) →
      artChunksLoop afail chunks i t st
        = ({ st with arts := st.arts ++ (chunks.take k).flatten },
           Except.error PyErr.dbErr)
  | 0, [], _, i, t, st, hk, hf, hprev => by simp at hk
  | 0, c :: rest, afail, i, t, st, hk, hf, hprev => by
      have h : afail i = true := by simpa using hf
      simp [artChunksLoop, h]
  | k + 1, [], _, i, t, st, hk, hf, hprev => by simp at hk
  | k + 1, c :: rest, afail, i, t, st, hk, hf, hprev => by
      have h0 : afail i = false := by simpa using hprev 0 (Nat.succ_pos k)
      have hf2 : afail (i + 1 + k) = true := by
        have he : i + 1 + k = i + (k + 1) := by omega
        rw [he]
        exact hf
      have hprev2 : ∀ j, j < k → afail (i + 1 + j) = false := by
        intro j hj
        have he : i + 1 + j = i + (j + 1) := by omega
        rw [he]
        exact hprev (j + 1) (by omega)
      have hk2 : k < rest.length := by simpa using hk
      simp only [artChunksLoop, h0, Bool.false_eq_true, if_false]
      rw [artChunksLoop_fail_at k rest afail (i + 1) (t + c.length)
        { st with arts := st.arts ++ c } hk2 hf2 hprev2]
      simp [List.append_assoc]

/-- C4 (amended): when the k-th chunk transaction of the article load fails,
the load fails by propagating the chunk's database error — which carries no
inserted-row total — and every chunk committed before the failing chunk
remains committed in the store. -/
theorem article_load_partial_commit (C : Nat) (rows : List StagedArticle) (m : PubMap)
    (afail : Nat → Bool) (st : PgState) (k : Nat)
    (hm : m.isEmpty = false)
    (hk : k < (writeChunks C (transformArticles m rows).1).length)
    (hf : afail k = true) (hprev : ∀ j, j < k → afail j = false) :
    pg_import_articles C (some rows) m afail st
      = ({ st with arts := st.arts
            ++ ((writeChunks C (transformArticles m rows).1).take k).flatten },
         Except.error PyErr.dbErr) := by
  have hstep : pg_import_articles C (some rows) m afail st
      = artChunksLoop afail (writeChunks C (transformArticles m rows).1) 0 0 st := by
    simp [pg_import_articles, hm]
  rw [hstep]
  have hf0 : afail (0 + k) = true := by rw [Nat.zero_add]; exact hf
  have hprev0 : ∀ j, j < k → afail (0 + j) = false := by
    intro j hj
    rw [Nat.zero_add]
    exact hprev j hj
  exact artChunksLoop_fail_at k _ afail 0 0 st hk hf0 hprev0

theorem article_load_partial_commit_witness :
    pg_import_articles 1 (some [stagedA, stagedB]) [("P", 0)] (fun j => j == 1) pgEmpty
      = ({ pgEmpty with arts := pgEmpty.arts
            ++ ((writeChunks 1
                (transformArticles [("P", 0)] [stagedA, stagedB]).1).take 1).flatten },
         Except.error PyErr.dbErr) :=
  article_load_partial_commit 1 [stagedA, stagedB] [("P", 0)] (fun j => j == 1)
    pgEmpty 1 (by decide) (by decide) (by decide) (by decide)

/-- C4 (counterexample to the claim as stated): the error with which a
failing article load surfaces is the payload-free database error, so no
function can read the partially-completed inserted-row total off the raised
error — two loads whose committed interim totals differ (1 row vs 2 rows)
fail with the identical error value. -/
theorem article_load_error_carries_no_total :
    ¬ ∃ f : PyErr → Nat,
      ∀ (afail : Nat → Bool) (chunks : List (List ResolvedArticle))
        (st st2 : PgState) (e : PyErr),
        artChunksLoop afail chunks 0 0 st = (st2, Except.error e) →
        f e = st2.arts.length - st.arts.length := by
  rintro ⟨f, h⟩
  have h1 := h (fun j => j == 1) [[resA], [resB]] pgEmpty
      { pgEmpty with arts := [resA] } PyErr.dbErr rfl
  have h2 := h (fun j => j == 1) [[resA, resA], [resB]] pgEmpty
      { pgEmpty with arts := [resA, resA] } PyErr.dbErr rfl
  simp [pgEmpty] at h1 h2
  omega

lemma upsertChunk_arts : ∀ (c : List String) (st : PgState),
    (upsertChunk st c).1.arts = st.arts
  | [], st => rfl
  | n :: rest, st => by
      show (upsertChunk (upsertOne st n).1 rest).1.arts = _
      rw [upsertChunk_arts rest _, upsertOne_arts]

lemma pubChunksLoop_arts (pfail : Nat → Bool) :
    ∀ (chunks : List (List String)) (i : Nat) (st : PgState) (m : PubMap),
      (pubChunksLoop pfail chunks i st m).1.arts = st.arts
  | [], i, st, m => rfl
  | c :: rest, i, st, m => by
      cases h : pfail i with
      | true => simp [pubChunksLoop, h]
      | false =>
          simp only [pubChunksLoop, h, Bool.false_eq_true, if_false]
          rw [pubChunksLoop_arts pfail rest (i + 1) (upsertChunk st c).1
            ((upsertChunk st c).2.foldl (fun m2 p => dictInsert m2 p.1 p.2) m)]
          exact upsertChunk_arts c st

lemma pg_import_publications_arts (C : Nat) (conn : Option (List String))
    (pfail : Nat → Bool) (st : PgState) :
    (pg_import_publications C conn pfail st).1.arts = st.arts := by
  cases conn with
  | none => rfl
  | some names => exact pubChunksLoop_arts pfail (writeChunks C names) 0 st []

lemma artChunksLoop_arts_prefix (afail : Nat → Bool) :
    ∀ (chunks : List (List ResolvedArticle)) (i t : Nat) (st : PgState),
      ∃ tail, (artChunksLoop afail chunks i t st).1.arts = st.arts ++ tail
  | [], i, t, st => ⟨[], by simp [artChunksLoop]⟩
  | c :: rest, i, t, st => by
      cases h : afail i with
      | true => exact ⟨[], by simp [artChunksLoop, h]⟩
      | false =>
          obtain ⟨tail, htail⟩ := artChunksLoop_arts_prefix afail rest (i + 1)
            (t + c.length) { st with arts := st.arts ++ c }
          refine ⟨c ++ tail, ?_⟩
          simp only [artChunksLoop, h, Bool.false_eq_true, if_false]
          rw [htail]
          simp [List.append_assoc]

lemma pg_import_articles_arts_prefix (C : Nat) (rows : List StagedArticle)
    (m : PubMap) (afail : Nat → Bool) (st : PgState) :
    ∃ tail, (pg_import_articles C (some rows) m afail st).1.arts = st.arts ++ tail := by
  cases h : m.isEmpty with
  | true => exact ⟨[], by simp [pg_import_articles, h]⟩
  | false =>
      obtain ⟨tail, htail⟩ := artChunksLoop_arts_prefix afail
        (writeChunks C (transformArticles m rows).1) 0 0 st
      refine ⟨tail, ?_⟩
      simp only [pg_import_articles, h, Bool.false_eq_true, if_false]
      exact htail

/-- C8 (amended): a run's outcome is a terminal status only — the Completed
state on success or the propagated stage error on failure — with no counters
attached; committed interim progress survives in the durable store (the
articles relation only ever grows during a run), not in the outcome value. -/
theorem orchestrate_outcome_terminal (C : Nat) (ex isf : Bool)
    (rows : List StagedArticle) (pfail afail : Nat → Bool) (st : PgState)
    (p : String) (st2 : PgState) (r : Except PyErr RunOutcome)
    (h : orchestrate_pipeline C ex isf rows pfail afail st p = (st2, r)) :
    (∀ o, r = Except.ok o → o = RunOutcome.completed) ∧ st.arts <+: st2.arts := by
  unfold orchestrate_pipeline at h
  cases hgf : get_file_path ex isf p with
  | error e =>
      rw [hgf] at h
      injection h with h1 h2
      subst h1
      subst h2
      exact ⟨(fun o ho => nomatch ho), List.prefix_rfl⟩
  | ok q =>
      rw [hgf] at h
      dsimp only at h
      rcases hpub : pg_import_publications C (some (create_publications_table rows))
          pfail st with ⟨st1, res1⟩
      rw [hpub] at h
      have harts1 : st1.arts = st.arts := by
        have := pg_import_publications_arts C (some (create_publications_table rows))
          pfail st
        rw [hpub] at this
        exact this
      cases res1 with
      | error e =>
          dsimp only at h
          injection h with h1 h2
          subst h1
          subst h2
          exact ⟨(fun o ho => nomatch ho), by rw [← harts1]⟩
      | ok m =>
          dsimp only at h
          rcases hart : pg_import_articles C (some rows) m afail st1 with ⟨stA, resA2⟩
          rw [hart] at h
          have harts2 : ∃ tail, stA.arts = st.arts ++ tail := by
            obtain ⟨tail, htail⟩ := pg_import_articles_arts_prefix C rows m afail st1
            rw [hart] at htail
            exact ⟨tail, by rw [htail, harts1]⟩
          obtain ⟨tail, htail⟩ := harts2
          cases resA2 with
          | error e =>
              injection h with h1 h2
              subst h1
              subst h2
              exact ⟨(fun o ho => nomatch ho), ⟨tail, htail.symm⟩⟩
          | ok total =>
              injection h with h1 h2
              subst h1
              subst h2
              refine ⟨fun o ho => ?_, ⟨tail, htail.symm⟩⟩
              cases o
              rfl


theorem orchestrate_outcome_terminal_witness :
    (∀ o, (Except.ok RunOutcome.completed : Except PyErr RunOutcome) = Except.ok o →
        o = RunOutcome.completed)
    ∧ pgEmpty.arts <+: stRunA.arts :=
  orchestrate_outcome_terminal 1 true true [stagedA] (fun _ => false) (fun _ => false)
    pgEmpty ("d.csv") stRunA (Except.ok RunOutcome.completed) rfl

/-- C8 (counterexample to the claim as stated): the flow returns the bare
Completed state and discards the task return values, so the run outcome
carries no counters — no function can read articlesInserted off the outcome,
since two successful runs that insert different numbers of articles (1 vs 2)
return the identical outcome value. -/
theorem orchestrate_outcome_carries_no_counters :
    ¬ ∃ f : RunOutcome → Nat,
      ∀ (C : Nat) (ex isf : Bool) (rows : List StagedArticle)
        (pfail afail : Nat → Bool) (st st2 : PgState) (p : String) (o : RunOutcome),
        orchestrate_pipeline C ex isf rows pfail afail st p = (st2, Except.ok o) →
        f o = st2.arts.length - st.arts.length := by
  rintro ⟨f, h⟩
  have h1 := h 1 true true [stagedA] (fun _ => false) (fun _ => false) pgEmpty
      stRunA ("d.csv") RunOutcome.completed rfl
  have h2 := h 1 true true [stagedA, stagedB] (fun _ => false) (fun _ => false)
      pgEmpty stRunB ("d.csv") RunOutcome.completed rfl
  simp [stRunA, stRunB, pgEmpty] at h1 h2
  omega

theorem publication_resolution_idempotent_witness :
    0 < 1
    ∧ ((pg_import_publications 1 (some ["P"]) (fun _ => false)
          { (pg_import_publications 1 (some ["P"]) (fun _ => false) pgEmpty).1 with
              now := 5 }).2
        = (pg_import_publications 1 (some ["P"]) (fun _ => false) pgEmpty).2
      ∧ skeleton (pg_import_publications 1 (some ["P"]) (fun _ => false)
          { (pg_import_publications 1 (some ["P"]) (fun _ => false) pgEmpty).1 with
              now := 5 }).1
        = skeleton (pg_import_publications 1 (some ["P"]) (fun _ => false) pgEmpty).1) :=
  ⟨by decide, publication_resolution_idempotent 1 ["P"] pgEmpty 5 (by decide)⟩
